import Mathlib

/-!
A shallow embedding of the windowed covariance tracker
(`CovarianceTracker<_Scalar, _Dimension>` from `covariance-tracker.h`,
the final lazy dirty-flag revision).

Modelling conventions:
* `double` and `_Scalar` arithmetic is modelled by exact rational
  arithmetic (`ℚ`); floating-point rounding is not modelled.
* The dynamically sized Eigen matrices `data_double_` and `residuals_`
  (`data_length_ × _Dimension`) are modelled as functions
  `Nat → Fin D → ℚ`; only rows `j < data_length_` correspond to real
  storage, and updates are guarded accordingly.
* Eigen fixed-size and dynamic matrices are not zero-initialized by their
  default constructors; the C++ constructor zeroes only `covariance_` and
  `columns_`.  The indeterminate initial contents of `mean_`,
  `data_double_` and `residuals_` are therefore passed to the model
  constructor as explicit parameters.
* The `int` cursor `newest_data_` is modelled as `Int` (initial value -1);
  the C++ `%` agrees with `Int.emod` on the nonnegative dividends that
  occur here.
-/

structure CovarianceTracker (D : Nat) where
  update_mean_ : Bool
  update_cov_ : Bool
  update_residuals_ : Bool
  newest_data_ : Int
  num_used_data_ : Nat
  mean_ : Fin D → ℚ
  data_length_ : Nat
  data_double_ : Nat → Fin D → ℚ
  residuals_ : Nat → Fin D → ℚ
  covariance_ : Fin D → Fin D → ℚ

namespace CovarianceTracker

/-- The constructor `CovarianceTracker(int len)`: flags start `false`,
cursor at `-1`, occupancy `0`, `covariance_` zeroed.  `mean0`, `data0`,
`resid0` are the indeterminate initial contents of the storage the
constructor does not initialize. -/
def mk0 (D len : Nat) (mean0 : Fin D → ℚ) (data0 resid0 : Nat → Fin D → ℚ) :
    CovarianceTracker D where
  update_mean_ := false
  update_cov_ := false
  update_residuals_ := false
  newest_data_ := -1
  num_used_data_ := 0
  mean_ := mean0
  data_length_ := len
  data_double_ := data0
  residuals_ := resid0
  covariance_ := fun _ _ => 0

variable {D : Nat}

/-- `getFractionUsed()`: `num_used_data_ / data_length_` as a `double`. -/
def getFractionUsed (s : CovarianceTracker D) : ℚ :=
  (s.num_used_data_ : ℚ) / (s.data_length_ : ℚ)

/-- `getDataLength()`. -/
def getDataLength (s : CovarianceTracker D) : Nat :=
  s.data_length_

/-- `getDimension()`: returns the template parameter `_Dimension`. -/
def getDimension (_ : CovarianceTracker D) : Nat :=
  D

/-- `addData(const Eigen::Matrix<_Scalar, _Dimension, 1>&)`: advance the
cursor circularly, increment occupancy unless saturated, overwrite the
cursor row with the (widened) point, mark all caches stale, and return
`getFractionUsed()`. -/
def addData (s : CovarianceTracker D) (point : Fin D → ℚ) :
    CovarianceTracker D × ℚ :=
  let nd : Int := (s.newest_data_ + 1) % (s.data_length_ : Int)
  let n : Nat :=
    if s.num_used_data_ < s.data_length_ then s.num_used_data_ + 1
    else s.num_used_data_
  let s1 : CovarianceTracker D :=
    { s with
      newest_data_ := nd
      num_used_data_ := n
      data_double_ := fun j i => if (j : Int) = nd then point i else s.data_double_ j i
      update_mean_ := true
      update_cov_ := true
      update_residuals_ := true }
  (s1, getFractionUsed s1)

/-- The column-wise average over the `num_used_data_` valid rows:
`data_double_.block(0, 0, num_used_data_, _Dimension).col(i).sum() / num_used_data_`. -/
def colMean (s : CovarianceTracker D) (i : Fin D) : ℚ :=
  (∑ j ∈ Finset.range s.num_used_data_, s.data_double_ j i) /
    (s.num_used_data_ : ℚ)

/-- `getMean()`: recompute the cached mean column by column if stale,
otherwise return the cache. -/
def getMean (s : CovarianceTracker D) :
    CovarianceTracker D × (Fin D → ℚ) :=
  if s.update_mean_ = true then
    ({ s with mean_ := colMean s, update_mean_ := false }, colMean s)
  else
    (s, s.mean_)

/-- `columns_[t]`: the `data_length_ × _Dimension` matrix whose column `t`
is all ones and whose other entries are zero (set up by the constructor). -/
def columnsMat (len D : Nat) (t : Fin D) : Nat → Fin D → ℚ :=
  fun j i => if j < len ∧ i = t then 1 else 0

/-- `tmp_means` in `calculateResiduals`: `∑ t, columns_[t] * mean_(t)`,
i.e. every valid row equals the mean vector. -/
def tmpMeans (s : CovarianceTracker D) : Nat → Fin D → ℚ :=
  fun j i => ∑ t : Fin D, columnsMat s.data_length_ D t j i * s.mean_ t

/-- `calculateResiduals()`: if stale, set `residuals_ = data_double_ - tmp_means`
(a full `data_length_ × _Dimension` matrix assignment) and clear the flag. -/
def calculateResiduals (s : CovarianceTracker D) : CovarianceTracker D :=
  if s.update_residuals_ = true then
    { s with
      residuals_ := fun j i =>
        if j < s.data_length_ then s.data_double_ j i - tmpMeans s j i
        else s.residuals_ j i
      update_residuals_ := false }
  else
    s

/-- `getCovariance()`: if the covariance cache is stale and more than one
datum is stored, refresh the mean and residuals and recompute
`residuals.block(0,0,n,D)ᵀ * residuals.block(0,0,n,D) / (n - 1)`;
otherwise return the cached matrix. -/
def getCovariance (s : CovarianceTracker D) :
    CovarianceTracker D × (Fin D → Fin D → ℚ) :=
  if s.update_cov_ = true ∧ 1 < s.num_used_data_ then
    let s1 := (getMean s).1
    let s2 := calculateResiduals s1
    let cov : Fin D → Fin D → ℚ := fun i k =>
      (∑ j ∈ Finset.range s2.num_used_data_, s2.residuals_ j i * s2.residuals_ j k) /
        ((s2.num_used_data_ : ℚ) - 1)
    ({ s2 with covariance_ := cov, update_cov_ := false }, cov)
  else
    (s, s.covariance_)

/-- `addData(const std::vector<_Scalar>&)`: asserts `point.size() == _Dimension`
(`none` models the assertion firing, with no state produced), then copies
the entries into an Eigen vector and delegates. -/
def addDataVec (s : CovarianceTracker D) (point : List ℚ) :
    Option (CovarianceTracker D × ℚ) :=
  if point.length = D then some (addData s fun i => point.getD i 0)
  else none

/-- `addData(const _Scalar point[])`: reads `_Dimension` consecutive
scalars starting at the pointer, with no length information; `junk`
models the indeterminate memory read past the end of a too-short array. -/
def addDataArr (s : CovarianceTracker D) (point : List ℚ) (junk : ℚ) :
    CovarianceTracker D × ℚ :=
  addData s fun i => point.getD i junk

/-- The operations a client can perform on a tracker after construction. -/
inductive Op (D : Nat) where
  | insert (p : Fin D → ℚ)
  | readMean
  | readCov

/-- One client operation, discarding returned values. -/
def step (s : CovarianceTracker D) : Op D → CovarianceTracker D
  | .insert p => (addData s p).1
  | .readMean => (getMean s).1
  | .readCov => (getCovariance s).1

/-- Run a sequence of client operations. -/
def runOps (s : CovarianceTracker D) (ops : List (Op D)) : CovarianceTracker D :=
  ops.foldl step s

/-- A state is reachable if it arises from some constructed tracker
(arbitrary capacity and arbitrary indeterminate initial storage) by a
sequence of client operations. -/
def Reachable (s : CovarianceTracker D) : Prop :=
  ∃ (len : Nat) (mean0 : Fin D → ℚ) (data0 resid0 : Nat → Fin D → ℚ)
    (ops : List (Op D)), s = runOps (mk0 D len mean0 data0 resid0) ops

/-- Insert `f 0, f 1, …, f (k-1)` in order. -/
def insertN (s : CovarianceTracker D) (f : Nat → Fin D → ℚ) : Nat → CovarianceTracker D
  | 0 => s
  | k + 1 => (addData (insertN s f k) (f k)).1

/-- The sample covariance the spec prescribes: `Rᵀ·R / (n - 1)` where `R`
holds the `n` valid rows with the column mean subtracted. -/
def sampleCov (s : CovarianceTracker D) (i k : Fin D) : ℚ :=
  (∑ j ∈ Finset.range s.num_used_data_,
      (s.data_double_ j i - colMean s i) * (s.data_double_ j k - colMean s k)) /
    ((s.num_used_data_ : ℚ) - 1)

/-- State invariant maintained by every reachable state. -/
structure Inv (s : CovarianceTracker D) : Prop where
  occ_le : s.num_used_data_ ≤ s.data_length_
  cov_res : s.update_cov_ = true → s.update_residuals_ = true
  mean_ok : s.update_mean_ = false → 1 ≤ s.num_used_data_ → ∀ i, s.mean_ i = colMean s i
  cov_symm : ∀ i k, s.covariance_ i k = s.covariance_ k i
  cov_diag : ∀ i, 0 ≤ s.covariance_ i i
  cov_zero : s.num_used_data_ ≤ 1 → ∀ i k, s.covariance_ i k = 0

/-- The concrete scenario of the spec: `D = 1`, capacity 5,
insert `1, 2, 3, 4, 5`. -/
def ex15Tracker : CovarianceTracker 1 :=
  runOps (mk0 1 5 (fun _ => 0) (fun _ _ => 0) (fun _ _ => 0))
    [Op.insert (fun _ => 1), Op.insert (fun _ => 2), Op.insert (fun _ => 3),
     Op.insert (fun _ => 4), Op.insert (fun _ => 5)]

theorem getMean_pos (s : CovarianceTracker D) (h : s.update_mean_ = true) :
    getMean s = ({ s with mean_ := colMean s, update_mean_ := false }, colMean s) := by
  simp [getMean, h]

theorem getMean_neg (s : CovarianceTracker D) (h : s.update_mean_ = false) :
    getMean s = (s, s.mean_) := by
  simp [getMean, h]

theorem calculateResiduals_pos (s : CovarianceTracker D) (h : s.update_residuals_ = true) :
    calculateResiduals s =
      { s with
        residuals_ := fun j i =>
          if j < s.data_length_ then s.data_double_ j i - tmpMeans s j i
          else s.residuals_ j i
        update_residuals_ := false } := by
  simp [calculateResiduals, h]

theorem calculateResiduals_neg (s : CovarianceTracker D) (h : s.update_residuals_ = false) :
    calculateResiduals s = s := by
  simp [calculateResiduals, h]

theorem getCovariance_neg (s : CovarianceTracker D)
    (h : ¬(s.update_cov_ = true ∧ 1 < s.num_used_data_)) :
    getCovariance s = (s, s.covariance_) := by
  simp only [getCovariance, if_neg h]

theorem getCovariance_pos (s : CovarianceTracker D)
    (hc : s.update_cov_ = true) (hn : 1 < s.num_used_data_) :
    getCovariance s =
      ({ calculateResiduals (getMean s).1 with
          covariance_ := fun i k =>
            (∑ j ∈ Finset.range (calculateResiduals (getMean s).1).num_used_data_,
                (calculateResiduals (getMean s).1).residuals_ j i *
                  (calculateResiduals (getMean s).1).residuals_ j k) /
              (((calculateResiduals (getMean s).1).num_used_data_ : ℚ) - 1)
          update_cov_ := false },
        fun i k =>
          (∑ j ∈ Finset.range (calculateResiduals (getMean s).1).num_used_data_,
              (calculateResiduals (getMean s).1).residuals_ j i *
                (calculateResiduals (getMean s).1).residuals_ j k) /
            (((calculateResiduals (getMean s).1).num_used_data_ : ℚ) - 1)) := by
  simp only [getCovariance, if_pos (And.intro hc hn)]

theorem tmpMeans_of_lt (s : CovarianceTracker D) (j : Nat) (hj : j < s.data_length_)
    (i : Fin D) : tmpMeans s j i = s.mean_ i := by
  simp [tmpMeans, columnsMat, hj]

theorem inv_mk0 (D len : Nat) (m0 : Fin D → ℚ) (d0 r0 : Nat → Fin D → ℚ) :
    Inv (mk0 D len m0 d0 r0) := by
  refine ⟨?_, ?_, ?_, ?_, ?_, ?_⟩ <;> simp [mk0]

theorem inv_addData (s : CovarianceTracker D) (p : Fin D → ℚ) (h : Inv s) :
    Inv (addData s p).1 := by
  obtain ⟨h1, h2, h3, h4, h5, h6⟩ := h
  refine ⟨?_, ?_, ?_, ?_, ?_, ?_⟩
  · simp only [addData]
    split <;> omega
  · simp [addData]
  · simp [addData]
  · simpa [addData] using h4
  · simpa [addData] using h5
  · intro hle i k
    have hsle : s.num_used_data_ ≤ 1 := by
      revert hle
      simp only [addData]
      split <;> omega
    simpa [addData] using h6 hsle i k

theorem inv_getMean (s : CovarianceTracker D) (h : Inv s) : Inv (getMean s).1 := by
  obtain ⟨h1, h2, h3, h4, h5, h6⟩ := h
  cases hm : s.update_mean_ with
  | false => simpa [getMean_neg s hm] using ⟨h1, h2, h3, h4, h5, h6⟩
  | true =>
    rw [getMean_pos s hm]
    exact ⟨h1, h2, fun _ _ i => rfl, h4, h5, h6⟩

/-- In the recompute branch, `getCovariance` returns the sample covariance
of the valid window and clears the relevant flags. -/
theorem getCovariance_recompute (s : CovarianceTracker D)
    (hres : s.update_residuals_ = true)
    (hmean : s.update_mean_ = false → ∀ i, s.mean_ i = colMean s i)
    (hlen : s.num_used_data_ ≤ s.data_length_)
    (hc : s.update_cov_ = true) (hn : 1 < s.num_used_data_) :
    (∀ i k, (getCovariance s).2 i k = sampleCov s i k) ∧
    (∀ i k, (getCovariance s).1.covariance_ i k = sampleCov s i k) ∧
    (getCovariance s).1.update_cov_ = false ∧
    (getCovariance s).1.update_residuals_ = false ∧
    (getCovariance s).1.update_mean_ = false ∧
    (getCovariance s).1.num_used_data_ = s.num_used_data_ ∧
    (getCovariance s).1.data_double_ = s.data_double_ ∧
    (getCovariance s).1.data_length_ = s.data_length_ ∧
    (∀ i, (getCovariance s).1.mean_ i = colMean s i) := by
  have hs1 :
      (getMean s).1.update_residuals_ = true ∧
      (getMean s).1.num_used_data_ = s.num_used_data_ ∧
      (getMean s).1.data_double_ = s.data_double_ ∧
      (getMean s).1.data_length_ = s.data_length_ ∧
      (getMean s).1.update_mean_ = false ∧
      (∀ i, (getMean s).1.mean_ i = colMean s i) ∧
      (getMean s).1.residuals_ = s.residuals_ := by
    cases hm : s.update_mean_ with
    | false => simp [getMean_neg s hm, hm, hres, hmean hm]
    | true => simp [getMean_pos s hm, hres]
  obtain ⟨g1, g2, g3, g4, g5, g6, g7⟩ := hs1
  have hcalc := calculateResiduals_pos (getMean s).1 g1
  have hres2 : ∀ j, j < s.num_used_data_ → ∀ i,
      (calculateResiduals (getMean s).1).residuals_ j i =
        s.data_double_ j i - colMean s i := by
    intro j hj i
    have hjlen : j < (getMean s).1.data_length_ := by
      rw [g4]; exact lt_of_lt_of_le hj hlen
    rw [hcalc]
    simp only [if_pos hjlen]
    rw [tmpMeans_of_lt (getMean s).1 j hjlen i, g6 i, g3]
  have hnum2 : (calculateResiduals (getMean s).1).num_used_data_ = s.num_used_data_ := by
    rw [hcalc]; exact g2
  have hval : ∀ i k,
      (∑ j ∈ Finset.range (calculateResiduals (getMean s).1).num_used_data_,
          (calculateResiduals (getMean s).1).residuals_ j i *
            (calculateResiduals (getMean s).1).residuals_ j k) /
        (((calculateResiduals (getMean s).1).num_used_data_ : ℚ) - 1) =
      sampleCov s i k := by
    intro i k
    rw [hnum2, sampleCov]
    congr 1
    refine Finset.sum_congr rfl ?_
    intro j hj
    have hjn : j < s.num_used_data_ := Finset.mem_range.mp hj
    rw [hres2 j hjn i, hres2 j hjn k]
  rw [getCovariance_pos s hc hn]
  refine ⟨fun i k => hval i k, fun i k => hval i k, rfl, ?_, ?_, ?_, ?_, ?_, ?_⟩
  · show (calculateResiduals (getMean s).1).update_residuals_ = false
    rw [hcalc]
  · show (calculateResiduals (getMean s).1).update_mean_ = false
    rw [hcalc]; exact g5
  · exact hnum2
  · show (calculateResiduals (getMean s).1).data_double_ = s.data_double_
    rw [hcalc]; exact g3
  · show (calculateResiduals (getMean s).1).data_length_ = s.data_length_
    rw [hcalc]; exact g4
  · intro i
    show (calculateResiduals (getMean s).1).mean_ i = colMean s i
    rw [hcalc]; exact g6 i

theorem sampleCov_symm (s : CovarianceTracker D) (i k : Fin D) :
    sampleCov s i k = sampleCov s k i := by
  unfold sampleCov
  congr 1
  exact Finset.sum_congr rfl fun j _ => mul_comm _ _

theorem sampleCov_diag_nonneg (s : CovarianceTracker D) (hn : 1 < s.num_used_data_)
    (i : Fin D) : 0 ≤ sampleCov s i i := by
  apply div_nonneg
  · exact Finset.sum_nonneg fun j _ => mul_self_nonneg _
  · have h2 : (2 : ℚ) ≤ (s.num_used_data_ : ℚ) := by exact_mod_cast hn
    linarith

theorem inv_getCovariance (s : CovarianceTracker D) (h : Inv s) :
    Inv (getCovariance s).1 := by
  by_cases hcond : s.update_cov_ = true ∧ 1 < s.num_used_data_
  · obtain ⟨hc, hn⟩ := hcond
    obtain ⟨hval, hcache, hflag, hresflag, hmflag, hnum, hdata, hlen2, hmean2⟩ :=
      getCovariance_recompute s (h.cov_res hc) (fun hm i => h.mean_ok hm (by omega) i)
        h.occ_le hc hn
    have hcol : ∀ i, colMean (getCovariance s).1 i = colMean s i := by
      intro i
      unfold colMean
      rw [hnum, hdata]
    refine ⟨?_, ?_, ?_, ?_, ?_, ?_⟩
    · rw [hnum, hlen2]; exact h.occ_le
    · rw [hflag]; intro hfalse; cases hfalse
    · intro _ _ i
      rw [hmean2 i]
      exact (hcol i).symm
    · intro i k
      rw [hcache i k, hcache k i, sampleCov_symm]
    · intro i
      rw [hcache i i]
      exact sampleCov_diag_nonneg s hn i
    · intro hle
      rw [hnum] at hle
      omega
  · rw [getCovariance_neg s hcond]
    exact h

theorem inv_step (s : CovarianceTracker D) (op : Op D) (h : Inv s) : Inv (step s op) := by
  cases op with
  | insert p => exact inv_addData s p h
  | readMean => exact inv_getMean s h
  | readCov => exact inv_getCovariance s h

theorem inv_runOps (s : CovarianceTracker D) (ops : List (Op D)) (h : Inv s) :
    Inv (runOps s ops) := by
  induction ops generalizing s with
  | nil => exact h
  | cons op rest ih => exact ih (step s op) (inv_step s op h)

theorem reachable_inv (s : CovarianceTracker D) (h : Reachable s) : Inv s := by
  obtain ⟨len, m0, d0, r0, ops, rfl⟩ := h
  exact inv_runOps _ ops (inv_mk0 D len m0 d0 r0)

theorem getMean_fst_update_mean (s : CovarianceTracker D) :
    (getMean s).1.update_mean_ = false := by
  cases hm : s.update_mean_ with
  | false => rw [getMean_neg s hm]; exact hm
  | true => rw [getMean_pos s hm]

theorem getMean_snd_eq_fst_mean (s : CovarianceTracker D) :
    (getMean s).2 = (getMean s).1.mean_ := by
  cases hm : s.update_mean_ with
  | false => rw [getMean_neg s hm]
  | true => rw [getMean_pos s hm]

theorem getMean_idem (s : CovarianceTracker D) :
    getMean ((getMean s).1) = getMean s := by
  cases hm : s.update_mean_ with
  | false => rw [getMean_neg s hm, getMean_neg s hm]
  | true =>
    rw [getMean_pos s hm]
    rw [getMean_neg _ rfl]

theorem getCovariance_idem (s : CovarianceTracker D) :
    getCovariance ((getCovariance s).1) = getCovariance s := by
  by_cases hcond : s.update_cov_ = true ∧ 1 < s.num_used_data_
  · obtain ⟨hc, hn⟩ := hcond
    rw [getCovariance_pos s hc hn]
    rw [getCovariance_neg _ (by simp)]
  · rw [getCovariance_neg s hcond, getCovariance_neg s hcond]

theorem calculateResiduals_mean (s : CovarianceTracker D) :
    (calculateResiduals s).mean_ = s.mean_ := by
  cases hr : s.update_residuals_ with
  | false => rw [calculateResiduals_neg s hr]
  | true => rw [calculateResiduals_pos s hr]

theorem calculateResiduals_update_mean (s : CovarianceTracker D) :
    (calculateResiduals s).update_mean_ = s.update_mean_ := by
  cases hr : s.update_residuals_ with
  | false => rw [calculateResiduals_neg s hr]
  | true => rw [calculateResiduals_pos s hr]

theorem getMean_after_getCovariance (s : CovarianceTracker D) :
    (getMean ((getCovariance s).1)).2 = (getMean s).2 := by
  by_cases hcond : s.update_cov_ = true ∧ 1 < s.num_used_data_
  · obtain ⟨hc, hn⟩ := hcond
    have hm3 : (getCovariance s).1.update_mean_ = false := by
      rw [getCovariance_pos s hc hn]
      show (calculateResiduals (getMean s).1).update_mean_ = false
      rw [calculateResiduals_update_mean (getMean s).1]
      exact getMean_fst_update_mean s
    rw [getMean_neg _ hm3]
    have : (getCovariance s).1.mean_ = (getMean s).1.mean_ := by
      rw [getCovariance_pos s hc hn]
      show (calculateResiduals (getMean s).1).mean_ = (getMean s).1.mean_
      exact calculateResiduals_mean (getMean s).1
    rw [this, getMean_snd_eq_fst_mean]
  · rw [getCovariance_neg s hcond]

theorem getCovariance_after_getMean (s : CovarianceTracker D) :
    (getCovariance ((getMean s).1)).2 = (getCovariance s).2 := by
  cases hm : s.update_mean_ with
  | false => rw [getMean_neg s hm]
  | true =>
    have hfix : (getMean ((getMean s).1)).1 = (getMean s).1 := by
      rw [getMean_idem]
    have hcov : (getMean s).1.update_cov_ = s.update_cov_ := by
      rw [getMean_pos s hm]
    have hnum : (getMean s).1.num_used_data_ = s.num_used_data_ := by
      rw [getMean_pos s hm]
    by_cases hcond : s.update_cov_ = true ∧ 1 < s.num_used_data_
    · obtain ⟨hc, hn⟩ := hcond
      rw [getCovariance_pos ((getMean s).1) (by rw [hcov]; exact hc)
        (by rw [hnum]; exact hn)]
      rw [getCovariance_pos s hc hn]
      rw [hfix]
    · rw [getCovariance_neg ((getMean s).1)
        (by rw [hcov, hnum]; exact hcond)]
      rw [getCovariance_neg s hcond]
      rw [getMean_pos s hm]

theorem addData_fst_num (s : CovarianceTracker D) (p : Fin D → ℚ) :
    (addData s p).1.num_used_data_ =
      if s.num_used_data_ < s.data_length_ then s.num_used_data_ + 1
      else s.num_used_data_ := rfl

theorem addData_fst_newest (s : CovarianceTracker D) (p : Fin D → ℚ) :
    (addData s p).1.newest_data_ = (s.newest_data_ + 1) % (s.data_length_ : Int) := rfl

theorem addData_fst_data (s : CovarianceTracker D) (p : Fin D → ℚ) :
    (addData s p).1.data_double_ = fun (j : Nat) (i : Fin D) =>
      if (j : Int) = (s.newest_data_ + 1) % (s.data_length_ : Int) then p i
      else s.data_double_ j i := rfl

theorem addData_snd (s : CovarianceTracker D) (p : Fin D → ℚ) :
    (addData s p).2 = getFractionUsed (addData s p).1 := rfl

theorem insertN_data_length (s : CovarianceTracker D) (f : Nat → Fin D → ℚ) (k : Nat) :
    (insertN s f k).data_length_ = s.data_length_ := by
  induction k with
  | zero => rfl
  | succ k ih => exact ih

theorem insertN_occ (C : Nat) (m0 : Fin D → ℚ) (d0 r0 : Nat → Fin D → ℚ)
    (f : Nat → Fin D → ℚ) (k : Nat) :
    (insertN (mk0 D C m0 d0 r0) f k).num_used_data_ = min k C := by
  induction k with
  | zero => simp [insertN, mk0]
  | succ k ih =>
    have hlen : (insertN (mk0 D C m0 d0 r0) f k).data_length_ = C :=
      insertN_data_length (mk0 D C m0 d0 r0) f k
    show (addData (insertN (mk0 D C m0 d0 r0) f k) (f k)).1.num_used_data_ = min (k + 1) C
    rw [addData_fst_num, hlen, ih]
    split <;> omega

theorem insertN_update_mean (s : CovarianceTracker D) (f : Nat → Fin D → ℚ) (k : Nat)
    (hk : 1 ≤ k) : (insertN s f k).update_mean_ = true := by
  cases k with
  | zero => omega
  | succ k => rfl

theorem insertN_update_cov (s : CovarianceTracker D) (f : Nat → Fin D → ℚ) (k : Nat)
    (hk : 1 ≤ k) : (insertN s f k).update_cov_ = true := by
  cases k with
  | zero => omega
  | succ k => rfl

theorem insertN_newest (C : Nat) (m0 : Fin D → ℚ) (d0 r0 : Nat → Fin D → ℚ)
    (f : Nat → Fin D → ℚ) (_hC : 1 ≤ C) (k : Nat) (hk : 1 ≤ k) :
    (insertN (mk0 D C m0 d0 r0) f k).newest_data_ = (((k - 1) % C : Nat) : Int) := by
  induction k with
  | zero => omega
  | succ k ih =>
    have hlen : (insertN (mk0 D C m0 d0 r0) f k).data_length_ = C :=
      insertN_data_length (mk0 D C m0 d0 r0) f k
    show (addData (insertN (mk0 D C m0 d0 r0) f k) (f k)).1.newest_data_ = _
    rw [addData_fst_newest, hlen]
    by_cases hk0 : k = 0
    · subst hk0
      show ((-1 : Int) + 1) % (C : Int) = (((1 - 1) % C : Nat) : Int)
      norm_num
    · rw [ih (by omega)]
      have hmod : ((k - 1) % C + 1) % C = k % C := by
        conv_rhs => rw [show k = (k - 1) + 1 by omega]
        rw [Nat.mod_add_mod]
      have hcast : ((((k - 1) % C : Nat) : Int) + 1) % ((C : Nat) : Int)
          = ((((k - 1) % C + 1) % C : Nat) : Int) := by
        push_cast
        ring_nf
      rw [hcast, hmod]
      simp

theorem insertN_data (C : Nat) (m0 : Fin D → ℚ) (d0 r0 : Nat → Fin D → ℚ)
    (f : Nat → Fin D → ℚ) (hC : 1 ≤ C) (k : Nat) :
    ∀ t, t < k → (∀ u, t < u → u < k → u % C ≠ t % C) → ∀ i,
      (insertN (mk0 D C m0 d0 r0) f k).data_double_ (t % C) i = f t i := by
  induction k with
  | zero => intro t ht; omega
  | succ k ih =>
    intro t ht hu i
    have hnd : ((insertN (mk0 D C m0 d0 r0) f k).newest_data_ + 1) %
        ((insertN (mk0 D C m0 d0 r0) f k).data_length_ : Int) = ((k % C : Nat) : Int) := by
      have h1 : (insertN (mk0 D C m0 d0 r0) f (k + 1)).newest_data_
          = (((k + 1 - 1) % C : Nat) : Int) :=
        insertN_newest C m0 d0 r0 f hC (k + 1) (by omega)
      have h2 : (insertN (mk0 D C m0 d0 r0) f (k + 1)).newest_data_
          = ((insertN (mk0 D C m0 d0 r0) f k).newest_data_ + 1) %
            ((insertN (mk0 D C m0 d0 r0) f k).data_length_ : Int) := rfl
      rw [← h2, h1]
      norm_num
    show (addData (insertN (mk0 D C m0 d0 r0) f k) (f k)).1.data_double_ (t % C) i = f t i
    rw [addData_fst_data]
    by_cases hteq : t = k
    · subst hteq
      simp [hnd]
    · have htk : t < k := by omega
      have hne : (((t % C : Nat) : Int)) ≠ ((k % C : Nat) : Int) := by
        intro hcast
        exact hu k htk (by omega) (by exact_mod_cast hcast.symm)
      simp only [hnd]
      rw [if_neg hne]
      exact ih t htk (fun u h1 h2 => hu u h1 (by omega)) i

theorem insertN_ret (C : Nat) (m0 : Fin D → ℚ) (d0 r0 : Nat → Fin D → ℚ)
    (f : Nat → Fin D → ℚ) (k : Nat) :
    (addData (insertN (mk0 D C m0 d0 r0) f k) (f k)).2
      = ((min (k + 1) C : Nat) : ℚ) / (C : ℚ) := by
  rw [addData_snd, getFractionUsed]
  have h1 : (addData (insertN (mk0 D C m0 d0 r0) f k) (f k)).1
      = insertN (mk0 D C m0 d0 r0) f (k + 1) := rfl
  rw [h1, insertN_occ]
  have h2 : (insertN (mk0 D C m0 d0 r0) f (k + 1)).data_length_ = C :=
    insertN_data_length (mk0 D C m0 d0 r0) f (k + 1)
  rw [h2]

theorem insertN_mean_evict (C : Nat) (m0 : Fin D → ℚ) (d0 r0 : Nat → Fin D → ℚ)
    (f : Nat → Fin D → ℚ) (hC : 1 < C) (i : Fin D) :
    (getMean (insertN (mk0 D C m0 d0 r0) f (C + 1))).2 i
      = (∑ t ∈ Finset.Ico 1 (C + 1), f t i) / (C : ℚ) := by
  have hC1 : 1 ≤ C := by omega
  have hum : (insertN (mk0 D C m0 d0 r0) f (C + 1)).update_mean_ = true :=
    insertN_update_mean _ f (C + 1) (by omega)
  rw [getMean_pos _ hum]
  show colMean (insertN (mk0 D C m0 d0 r0) f (C + 1)) i = _
  have hnum : (insertN (mk0 D C m0 d0 r0) f (C + 1)).num_used_data_ = C := by
    rw [insertN_occ]; omega
  have hd0 : (insertN (mk0 D C m0 d0 r0) f (C + 1)).data_double_ 0 i = f C i := by
    have h := insertN_data C m0 d0 r0 f hC1 (C + 1) C (by omega)
      (fun u h1 h2 => by omega) i
    rwa [Nat.mod_self] at h
  have hdj : ∀ j, 1 ≤ j → j < C →
      (insertN (mk0 D C m0 d0 r0) f (C + 1)).data_double_ j i = f j i := by
    intro j hj1 hj2
    have hnl : ∀ u, j < u → u < C + 1 → u % C ≠ j % C := by
      intro u h1 h2 heq
      have hjC : j % C = j := Nat.mod_eq_of_lt hj2
      rw [hjC] at heq
      by_cases hu : u < C
      · rw [Nat.mod_eq_of_lt hu] at heq; omega
      · have huC : u = C := by omega
        subst huC
        rw [Nat.mod_self] at heq; omega
    have h := insertN_data C m0 d0 r0 f hC1 (C + 1) j (by omega) hnl i
    rwa [Nat.mod_eq_of_lt hj2] at h
  rw [colMean, hnum]
  have hsum : (∑ j ∈ Finset.range C,
      (insertN (mk0 D C m0 d0 r0) f (C + 1)).data_double_ j i)
      = ∑ t ∈ Finset.Ico 1 (C + 1), f t i := by
    rw [Finset.range_eq_Ico, Finset.sum_eq_sum_Ico_succ_bot (by omega : 0 < C)]
    rw [Finset.sum_congr rfl (fun j hj => hdj j (Finset.mem_Ico.mp hj).1
      (Finset.mem_Ico.mp hj).2)]
    rw [Finset.sum_Ico_succ_top (by omega : 1 ≤ C), hd0]
    ring
  rw [hsum]

theorem getD_eq_of_lt (l : List ℚ) (i : Nat) (d1 d2 : ℚ) (h : i < l.length) :
    l.getD i d1 = l.getD i d2 := by
  induction l generalizing i with
  | nil => simp at h
  | cons a tl ih =>
    cases i with
    | zero => rfl
    | succ i => exact ih i (by simpa using h)

/-- C1: for every reachable state with occupancy `n ≥ 2` and a stale
covariance cache, `getCovariance` recomputes and returns `Rᵀ·R / (n - 1)`
over the mean-centred valid window rows, clearing the covariance and
residual staleness flags; in particular for `D = 1`, capacity 5 and
inserts `1, 2, 3, 4, 5`, the mean is `3` and the covariance is `5/2`. -/
theorem claim_C1 (s : CovarianceTracker D) (h : Reachable s)
    (hc : s.update_cov_ = true) (hn : 2 ≤ s.num_used_data_) :
    (∀ i k, (getCovariance s).2 i k = sampleCov s i k) ∧
    (∀ i k, (getCovariance s).1.covariance_ i k = sampleCov s i k) ∧
    (getCovariance s).1.update_cov_ = false ∧
    (getCovariance s).1.update_residuals_ = false ∧
    (getMean ex15Tracker).2 0 = 3 ∧
    (getCovariance ex15Tracker).2 0 0 = 5 / 2 := by
  have hinv := reachable_inv s h
  have hn1 : 1 < s.num_used_data_ := by omega
  obtain ⟨hval, hcache, hflag, hresflag, -⟩ :=
    getCovariance_recompute s (hinv.cov_res hc)
      (fun hm i => hinv.mean_ok hm (by omega) i) hinv.occ_le hc hn1
  have h0 : ex15Tracker.data_double_ 0 0 = 1 := rfl
  have h1 : ex15Tracker.data_double_ 1 0 = 2 := rfl
  have h2 : ex15Tracker.data_double_ 2 0 = 3 := rfl
  have h3 : ex15Tracker.data_double_ 3 0 = 4 := rfl
  have h4 : ex15Tracker.data_double_ 4 0 = 5 := rfl
  have hn5 : ex15Tracker.num_used_data_ = 5 := rfl
  refine ⟨hval, hcache, hflag, hresflag, ?_, ?_⟩
  · rw [getMean_pos ex15Tracker rfl]
    show colMean ex15Tracker 0 = 3
    simp [colMean, hn5, Finset.sum_range_succ, h0, h1, h2, h3, h4]
    norm_num
  · have hinv15 := reachable_inv ex15Tracker
      ⟨5, fun _ => 0, fun _ _ => 0, fun _ _ => 0, _, rfl⟩
    obtain ⟨hval15, -⟩ := getCovariance_recompute ex15Tracker (hinv15.cov_res rfl)
      (fun hm i => hinv15.mean_ok hm (by decide) i) hinv15.occ_le rfl (by decide)
    rw [hval15 0 0]
    simp [sampleCov, colMean, hn5, Finset.sum_range_succ, h0, h1, h2, h3, h4]
    norm_num

theorem claim_C1_witness :
    (getCovariance ex15Tracker).2 0 0 = sampleCov ex15Tracker 0 0 :=
  (claim_C1 ex15Tracker ⟨5, fun _ => 0, fun _ _ => 0, fun _ _ => 0, _, rfl⟩
    rfl (by decide)).1 0 0

/-- C2: with capacity `C > 1`, after `k` insertions occupancy is
`min k C`; every insert returns `min k C / C`, which lies in `[0, 1]`;
once `k > C` the window rows hold exactly the `C` most recent samples
(sample `t` lives in row `t % C`); and the mean after inserting `C + 1`
points is the mean of the last `C` points only. -/
theorem claim_C2 (C : Nat) (hC : 1 < C) (m0 : Fin D → ℚ)
    (d0 r0 : Nat → Fin D → ℚ) (f : Nat → Fin D → ℚ) :
    (∀ k, (insertN (mk0 D C m0 d0 r0) f k).num_used_data_ = min k C) ∧
    (∀ k, (addData (insertN (mk0 D C m0 d0 r0) f k) (f k)).2
        = ((min (k + 1) C : Nat) : ℚ) / (C : ℚ) ∧
      0 ≤ (addData (insertN (mk0 D C m0 d0 r0) f k) (f k)).2 ∧
      (addData (insertN (mk0 D C m0 d0 r0) f k) (f k)).2 ≤ 1) ∧
    (∀ k, C < k → ∀ t, k - C ≤ t → t < k → ∀ i,
      (insertN (mk0 D C m0 d0 r0) f k).data_double_ (t % C) i = f t i) ∧
    (∀ i, (getMean (insertN (mk0 D C m0 d0 r0) f (C + 1))).2 i
      = (∑ t ∈ Finset.Ico 1 (C + 1), f t i) / (C : ℚ)) := by
  refine ⟨insertN_occ C m0 d0 r0 f, ?_, ?_, insertN_mean_evict C m0 d0 r0 f hC⟩
  · intro k
    refine ⟨insertN_ret C m0 d0 r0 f k, ?_, ?_⟩
    · rw [insertN_ret C m0 d0 r0 f k]
      exact div_nonneg (Nat.cast_nonneg _) (Nat.cast_nonneg _)
    · rw [insertN_ret C m0 d0 r0 f k]
      apply div_le_one_of_le₀
      · exact_mod_cast min_le_right (k + 1) C
      · exact Nat.cast_nonneg _
  · intro k hk t ht1 ht2 i
    apply insertN_data C m0 d0 r0 f (by omega) k t ht2
    intro u hu1 hu2 heq
    have hdvd : C ∣ u - t := (Nat.modEq_iff_dvd' (by omega)).mp heq.symm
    have hge : C ≤ u - t := Nat.le_of_dvd (by omega) hdvd
    omega

theorem claim_C2_witness :
    (insertN (mk0 1 2 (fun _ => 0) (fun _ _ => 0) (fun _ _ => 0))
      (fun t _ => (t : ℚ)) 3).num_used_data_ = min 3 2 :=
  (claim_C2 2 (by norm_num) (fun _ => 0) (fun _ _ => 0) (fun _ _ => 0)
    (fun t _ => (t : ℚ))).1 3

/-- C3: in every reachable state with at most one stored sample,
`getCovariance` returns the all-zero matrix. -/
theorem claim_C3 (s : CovarianceTracker D) (h : Reachable s)
    (hn : s.num_used_data_ ≤ 1) :
    ∀ i k, (getCovariance s).2 i k = 0 := by
  have hinv := reachable_inv s h
  have hcond : ¬(s.update_cov_ = true ∧ 1 < s.num_used_data_) := by
    rintro ⟨-, h2⟩
    omega
  intro i k
  rw [getCovariance_neg s hcond]
  exact hinv.cov_zero hn i k

theorem claim_C3_witness :
    (getCovariance (mk0 1 3 (fun _ => 0) (fun _ _ => 0) (fun _ _ => 0))).2 0 0 = 0 :=
  claim_C3 _ ⟨3, fun _ => 0, fun _ _ => 0, fun _ _ => 0, [], rfl⟩ (by decide) 0 0

/-- C4: `getMean` on a freshly constructed tracker returns the cached
`mean_` vector, which the constructor leaves uninitialized (the staleness
flag starts `false`), not the zero vector; a fresh tracker whose
indeterminate mean cache holds `1` returns `1`. -/
theorem claim_C4 :
    (∀ (E len : Nat) (m0 : Fin E → ℚ) (d0 r0 : Nat → Fin E → ℚ),
      (getMean (mk0 E len m0 d0 r0)).2 = m0) ∧
    (getMean (mk0 1 5 (fun _ => 1) (fun _ _ => 0) (fun _ _ => 0))).2 0 ≠ 0 := by
  constructor
  · intro E len m0 d0 r0
    rw [getMean_neg _ rfl]
    rfl
  · rw [getMean_neg _ rfl]
    show (mk0 1 5 (fun _ => 1) (fun _ _ => 0) (fun _ _ => 0)).mean_ 0 ≠ 0
    simp [mk0]

/-- C5 counterexample: the constructor initializes all three staleness
flags to `false`, not `true`, and the mean cache keeps its indeterminate
initial contents rather than being zeroed. -/
theorem claim_C5_counterexample :
    (mk0 1 5 (fun _ => 0) (fun _ _ => 0) (fun _ _ => 0)).update_mean_ = false ∧
    (mk0 1 5 (fun _ => 0) (fun _ _ => 0) (fun _ _ => 0)).update_cov_ = false ∧
    (mk0 1 5 (fun _ => 0) (fun _ _ => 0) (fun _ _ => 0)).update_residuals_ = false ∧
    (mk0 1 5 (fun _ => 1) (fun _ _ => 0) (fun _ _ => 0)).mean_ 0 ≠ 0 := by
  refine ⟨rfl, rfl, rfl, ?_⟩
  simp [mk0]

/-- C5 (amended): construction sets the cursor to `-1`, occupancy to `0`
and the covariance cache to zero, but sets all three staleness flags to
`false` and leaves the mean and residual caches (and the sample table)
with their indeterminate initial contents. -/
theorem claim_C5 : ∀ (E len : Nat) (m0 : Fin E → ℚ) (d0 r0 : Nat → Fin E → ℚ),
    (mk0 E len m0 d0 r0).newest_data_ = -1 ∧
    (mk0 E len m0 d0 r0).num_used_data_ = 0 ∧
    (∀ i k, (mk0 E len m0 d0 r0).covariance_ i k = 0) ∧
    (mk0 E len m0 d0 r0).update_mean_ = false ∧
    (mk0 E len m0 d0 r0).update_cov_ = false ∧
    (mk0 E len m0 d0 r0).update_residuals_ = false ∧
    (mk0 E len m0 d0 r0).mean_ = m0 ∧
    (mk0 E len m0 d0 r0).residuals_ = r0 ∧
    (mk0 E len m0 d0 r0).data_double_ = d0 ∧
    (mk0 E len m0 d0 r0).data_length_ = len :=
  fun _ _ _ _ _ => ⟨rfl, rfl, fun _ _ => rfl, rfl, rfl, rfl, rfl, rfl, rfl, rfl⟩

/-- C6 counterexample: inserting a 1-element array into a `D = 2` tracker
via the raw-array overload raises no error — occupancy changes and the
missing coordinate is filled from adjacent memory (here `7`). -/
theorem claim_C6_counterexample :
    (addDataArr (mk0 2 3 (fun _ => 0) (fun _ _ => 0) (fun _ _ => 0)) [5] 7).1.num_used_data_ = 1 ∧
    (addDataArr (mk0 2 3 (fun _ => 0) (fun _ _ => 0) (fun _ _ => 0)) [5] 7).1.data_double_ 0 1 = 7 :=
  ⟨rfl, rfl⟩

/-- C6 (amended): the `std::vector` overload asserts the size equals `D`
and fails with no state change on mismatch, but the raw-array overload
performs no length check: it always reads `D` scalars, padding a short
array with adjacent memory. -/
theorem claim_C6 (s : CovarianceTracker D) (point : List ℚ) (h : point.length ≠ D) :
    addDataVec s point = none ∧
    (∀ junk, addDataArr s point junk = addData s fun i => point.getD i junk) := by
  constructor
  · rw [addDataVec, if_neg h]
  · intro junk
    rfl

theorem claim_C6_witness :
    addDataVec (mk0 2 3 (fun _ => 0) (fun _ _ => 0) (fun _ _ => 0)) [5] = none :=
  (claim_C6 (mk0 2 3 (fun _ => 0) (fun _ _ => 0) (fun _ _ => 0)) [5] (by decide)).1

/-- C7 counterexample: constructing a tracker with capacity 1 succeeds —
no configuration error is raised — and inserting into it works, returning
fraction 1. -/
theorem claim_C7_counterexample :
    (mk0 1 1 (fun _ => 0) (fun _ _ => 0) (fun _ _ => 0)).data_length_ = 1 ∧
    (addData (mk0 1 1 (fun _ => 0) (fun _ _ => 0) (fun _ _ => 0)) (fun _ => 5)).2 = 1 := by
  refine ⟨rfl, ?_⟩
  rw [addData_snd, getFractionUsed]
  norm_num [show (addData (mk0 1 1 (fun _ => 0) (fun _ _ => 0) (fun _ _ => 0))
    (fun _ => (5 : ℚ))).1.num_used_data_ = 1 from rfl,
    show (addData (mk0 1 1 (fun _ => 0) (fun _ _ => 0) (fun _ _ => 0))
    (fun _ => (5 : ℚ))).1.data_length_ = 1 from rfl]

/-- C7 (amended): the constructor performs no capacity validation —
construction succeeds for every requested length, including `len ≤ 1`,
storing the length verbatim with occupancy 0. -/
theorem claim_C7 : ∀ (E len : Nat) (m0 : Fin E → ℚ) (d0 r0 : Nat → Fin E → ℚ),
    (mk0 E len m0 d0 r0).data_length_ = len ∧
    (mk0 E len m0 d0 r0).num_used_data_ = 0 :=
  fun _ _ _ _ _ => ⟨rfl, rfl⟩

/-- C8: in every reachable state the matrix returned by `getCovariance`
is symmetric and has non-negative diagonal entries. -/
theorem claim_C8 (s : CovarianceTracker D) (h : Reachable s) :
    (∀ i k, (getCovariance s).2 i k = (getCovariance s).2 k i) ∧
    (∀ i, 0 ≤ (getCovariance s).2 i i) := by
  have hinv := reachable_inv s h
  by_cases hcond : s.update_cov_ = true ∧ 1 < s.num_used_data_
  · obtain ⟨hc, hn⟩ := hcond
    obtain ⟨hval, -⟩ := getCovariance_recompute s (hinv.cov_res hc)
      (fun hm i => hinv.mean_ok hm (by omega) i) hinv.occ_le hc hn
    constructor
    · intro i k
      rw [hval i k, hval k i, sampleCov_symm]
    · intro i
      rw [hval i i]
      exact sampleCov_diag_nonneg s hn i
  · rw [getCovariance_neg s hcond]
    exact ⟨hinv.cov_symm, hinv.cov_diag⟩

theorem claim_C8_witness :
    0 ≤ (getCovariance (mk0 1 4 (fun _ => 0) (fun _ _ => 0) (fun _ _ => 0))).2 0 0 :=
  (claim_C8 _ ⟨4, fun _ => 0, fun _ _ => 0, fun _ _ => 0, [], rfl⟩).2 0

/-- C9: repeated reads with no intervening insert return identical
results — a second `getMean` or `getCovariance` call is a no-op returning
the cached value, in either interleaving. -/
theorem claim_C9 (s : CovarianceTracker D) :
    getMean ((getMean s).1) = getMean s ∧
    getCovariance ((getCovariance s).1) = getCovariance s ∧
    (getMean ((getCovariance s).1)).2 = (getMean s).2 ∧
    (getCovariance ((getMean s).1)).2 = (getCovariance s).2 :=
  ⟨getMean_idem s, getCovariance_idem s, getMean_after_getCovariance s,
    getCovariance_after_getMean s⟩

/-- C10: on an input of exactly `D` scalars, the `std::vector` and
raw-array overloads of `addData` agree with the Eigen-vector overload:
both copy the `D` values and delegate, producing identical post-states
and returns. -/
theorem claim_C10 (s : CovarianceTracker D) (point : List ℚ)
    (h : point.length = D) (junk : ℚ) :
    addDataVec s point = some (addData s fun i => point.getD i junk) ∧
    addDataArr s point junk = addData s fun i => point.getD i junk := by
  constructor
  · rw [addDataVec, if_pos h]
    have harg : (fun (i : Fin D) => point.getD i 0)
        = fun (i : Fin D) => point.getD i junk := by
      funext i
      exact getD_eq_of_lt point i 0 junk (by rw [h]; exact i.isLt)
    rw [harg]
  · rfl

theorem claim_C10_witness :
    addDataVec (mk0 2 3 (fun _ => 0) (fun _ _ => 0) (fun _ _ => 0)) [1, 2]
      = some (addData (mk0 2 3 (fun _ => 0) (fun _ _ => 0) (fun _ _ => 0))
          fun i => [(1 : ℚ), 2].getD i 7) :=
  (claim_C10 (mk0 2 3 (fun _ => 0) (fun _ _ => 0) (fun _ _ => 0)) [1, 2]
    (by decide) 7).1

end CovarianceTracker
